import Mathlib

/-!
Shallow embedding of the CSV indexing/reading engine (`CSVFileParser` and
`CSVObjectLine`) of the node-csv repository, together with proofs settling
the specification claims about it.

Modelling conventions:
* JS strings are Lean `String`s; the files exercised are ASCII, so the JS
  UTF-16 `length` coincides with the Lean character count.
* A JS value that is `string | null` is `Option String`; the value stored in
  a row's `fields` slot (`string | null | Array<string|null>`) is `FieldVal`.
* JS objects used as string-keyed maps are association lists that preserve
  insertion order, as JS objects do for string keys.
* The readline stream is modelled as the list of lines it yields; the raw
  byte content of the file is a `List Char` used by the positioned reads.
* Thrown JS errors become `Except JSError`; the error constructors are keyed
  to the distinct throw sites of the source.
-/

/-- Value stored under one key of a row's `fields` object: a string, `null`,
or an array of string-or-null accumulated for repeated assignments. -/
inductive FieldVal where
  | str : String → FieldVal
  | nullv : FieldVal
  | arr : List (Option String) → FieldVal
deriving DecidableEq, Repr

/-- The `fields` object of a row record: insertion-ordered string-keyed map. -/
abbrev Fields := List (String × FieldVal)

/-- Property lookup `fields[col]`: `none` models an absent key (JS `undefined`). -/
def lookupField : Fields → String → Option FieldVal
  | [], _ => none
  | (k', v') :: rest, k => if k' = k then some v' else lookupField rest k

/-- Property assignment `fields[col] = v`: updates an existing key in place
(keeping its position) or appends a new key at the end, as JS objects do. -/
def setField : Fields → String → FieldVal → Fields
  | [], k, v => [(k, v)]
  | (k', v') :: rest, k, v =>
    if k' = k then (k', v) :: rest else (k', v') :: setField rest k v

/-- Character-level splitter: accumulates the current token (reversed) and
emits it at each separator and at the end of the input. -/
def splitCharAux (sep : Char) : List Char → List Char → List String
  | [], acc => [String.mk acc.reverse]
  | ch :: rest, acc =>
    if ch = sep then String.mk acc.reverse :: splitCharAux sep rest []
    else splitCharAux sep rest (ch :: acc)

/-- `CSVFileParser.#splitCSVLine`: `line.split(',')`. The char-level
recursion has exactly the JS single-character split semantics, including
`"".split(',') == [""]` and empty tokens between adjacent separators. -/
def splitCSVLine (line : String) : List String :=
  splitCharAux ',' line.data []

/-- The characters the JS `String.prototype.trim` removes, restricted to the
ASCII range of the modelled files: space, tab, newline, carriage return,
vertical tab and form feed. -/
def isJSSpace (c : Char) : Bool :=
  c = ' ' ∨ c = '\t' ∨ c = '\n' ∨ c = '\r' ∨ c = Char.ofNat 11 ∨ c = Char.ofNat 12

/-- `text.trim()` on a character list: strip leading and trailing
whitespace. -/
def jsTrimChars (l : List Char) : List Char :=
  ((l.dropWhile isJSSpace).reverse.dropWhile isJSSpace).reverse

/-- The JS idiom `cell || null` applied to a string: an empty string is falsy
and becomes `null`. -/
def jsOrNull (s : String) : Option String :=
  if s = "" then none else some s

/-- `cells[i] || null`: an out-of-range access yields `undefined`, and both
`undefined` and the empty string normalize to `null`. -/
def jsCellAt (cells : List String) (i : Nat) : Option String :=
  match cells[i]? with
  | some s => jsOrNull s
  | none => none

/-- Conversion of a cell into the stored field value. -/
def cellToVal : Option String → FieldVal
  | none => FieldVal.nullv
  | some s => FieldVal.str s

/-- One assignment of `cell` to column `col` in `#buildLineObject`:
if the slot currently holds a string it becomes a two-element array, if it
holds an array the cell is appended, otherwise (absent or `null`) the slot is
overwritten with the cell. -/
def assignField (fs : Fields) (col : String) (cell : Option String) : Fields :=
  match lookupField fs col with
  | some (FieldVal.str s) => setField fs col (FieldVal.arr [some s, cell])
  | some (FieldVal.arr l) => setField fs col (FieldVal.arr (l ++ [cell]))
  | _ => setField fs col (cellToVal cell)

/-- `result.fields._unnamed.push(cell)`. In every record reachable from the
decoder the `_unnamed` slot holds an array, so the fallthrough case (where
the source would throw on `.push`) is unreachable. -/
def pushUnnamedCell (fs : Fields) (cell : Option String) : Fields :=
  match lookupField fs "_unnamed" with
  | some (FieldVal.arr l) => setField fs "_unnamed" (FieldVal.arr (l ++ [cell]))
  | _ => fs

/-- The excess-cells loop of `#buildLineObject` (`cells.length > header.length`):
iterates over all cells with counter `i`; a falsy column name (out of range or
empty) sends the cell to the `_unnamed` bucket. -/
def excessLoop (hdr : List String) (i : Nat) : List String → Fields → Fields
  | [], fs => fs
  | cl :: rest, fs =>
    let cell := jsOrNull cl
    let fs1 := match hdr[i]? with
      | none => pushUnnamedCell fs cell
      | some c => if c = "" then pushUnnamedCell fs cell else assignField fs c cell
    excessLoop hdr (i + 1) rest fs1

/-- The normal loop of `#buildLineObject`: iterates over all header columns
with counter `i`, assigning `cells[i] || null` to each column name. -/
def assignLoop (cells : List String) (i : Nat) : List String → Fields → Fields
  | [], fs => fs
  | col :: rest, fs => assignLoop cells (i + 1) rest (assignField fs col (jsCellAt cells i))

/-- `CSVObjectLine`: the row record produced per decoded line. The `fields`
object is created as `{ _unnamed: [] }`, so the bucket key exists from the
start; `hasMissingCells` and `hasExcessCells` are initialised to `false`. -/
structure CSVObjectLine where
  index : Int
  line : Option String
  cells : List String
  hasMissingCells : Bool
  hasExcessCells : Bool
  fields : Fields
deriving DecidableEq, Repr

/-- `CSVFileParser.#buildLineObject` with the header already resolved to an
array (the source resolves a string header through `#splitCSVLine` and a null
header through `this.#header`; the callers below perform that resolution). -/
def buildLineObject (line : String) (index : Int) (hdr : List String) : CSVObjectLine :=
  let cells := splitCSVLine line
  let initFields : Fields := [("_unnamed", FieldVal.arr [])]
  if cells.length > hdr.length then
    { index := index, line := some line, cells := cells,
      hasMissingCells := false, hasExcessCells := true,
      fields := excessLoop hdr 0 cells initFields }
  else
    { index := index, line := some line, cells := cells,
      hasMissingCells := false, hasExcessCells := false,
      fields := assignLoop cells 0 hdr initFields }

/-- Line divisor: the source only ever holds the strings of one or two bytes
produced by the sniffing code in `open()`. -/
inductive LineDivisor where
  | lf : LineDivisor
  | crlf : LineDivisor
deriving DecidableEq, Repr

/-- Byte length of the divisor string (`this.#line_divisor.length`). -/
def LineDivisor.len : LineDivisor → Nat
  | .lf => 1
  | .crlf => 2

/-- The divisor as the string written in the file. -/
def LineDivisor.toStr : LineDivisor → String
  | .lf => "\n"
  | .crlf => "\r\n"

/-- Thrown errors, keyed to the distinct throw sites of the source:
`stateError` for the hand-built lifecycle errors (not open, already open,
not indexed), `rangeError` for the hand-built line-index-out-of-range error
in `getLine`, `typeError` for a JS TypeError raised by accessing a property
of `undefined` or `null`, `bufferRangeError` for the ERR_OUT_OF_RANGE that
`fs.read` raises when asked for more bytes than the supplied buffer holds,
and `ioError` for a wrapped read failure. -/
inductive JSError where
  | stateError : JSError
  | rangeError : JSError
  | typeError : JSError
  | bufferRangeError : JSError
  | ioError : JSError
deriving DecidableEq, Repr

/-- The private state of a `CSVFileParser` instance. Handles and streams are
abstracted: `reading_handle` is the file-descriptor slot of the positioned
read handle (`none` when closed), `stream_pos` is `some` of the number of
lines already consumed when the readline stream exists, `reading_buffer` is
the size of the pre-allocated shared read buffer. -/
structure ParserState where
  filename : String
  index_pool : List (Nat × Nat)
  header : Option (List String)
  lines : Nat
  columns : Nat
  size : Nat
  is_open : Bool
  is_indexed : Bool
  is_iterator_active : Bool
  reading_buffer : Option Nat
  reading_handle : Option Nat
  stream_pos : Option Nat
  line_divisor : Option LineDivisor
deriving DecidableEq, Repr

/-- The constructor (with `open: false`): note that `#line_divisor` is
initialised to the one-byte newline, not to null. -/
def mkParser (filename : String) : ParserState :=
  { filename := filename, index_pool := [], header := none, lines := 0,
    columns := 0, size := 0, is_open := false, is_indexed := false,
    is_iterator_active := false, reading_buffer := none, reading_handle := none,
    stream_pos := none, line_divisor := some LineDivisor.lf }

/-- Scan of a leading chunk for a carriage-return-newline pair, as
`tempbuffer.toString('utf-8').includes('\r\n')` does. -/
def hasCRLF : List Char → Bool
  | [] => false
  | '\r' :: '\n' :: _ => true
  | _ :: rest => hasCRLF rest

/-- The divisor the sniffing code in `open()` would select: carriage-return
-newline if the first 8192 bytes of the file contain one, else newline. -/
def sniffDivisor (content : List Char) : LineDivisor :=
  if hasCRLF (content.take 8192) then LineDivisor.crlf else LineDivisor.lf

/-- `CSVFileParser.open()`: fails when already open; creates the stream,
acquires the positioned-read handle if absent, and runs the divisor sniff
only when `#line_divisor` is falsy (which the constructor makes impossible,
since it pre-sets the newline divisor). -/
def openP (content : List Char) (p : ParserState) : Except JSError ParserState :=
  if p.is_open then Except.error JSError.stateError
  else
    let handle := match p.reading_handle with
      | some h => some h
      | none => some 0
    let p1 := { p with stream_pos := some 0, reading_handle := handle, is_open := true }
    if p1.line_divisor.isNone then
      Except.ok { p1 with line_divisor := some (sniffDivisor content) }
    else
      Except.ok p1

/-- `CSVFileParser.close({preserveFileHandle})`: fails when not open;
destroys the streams and, unless preservation is requested, the handle. -/
def closeP (preserveFileHandle : Bool) (p : ParserState) : Except JSError ParserState :=
  if p.is_open then
    Except.ok
      { p with
        stream_pos := none,
        reading_handle := if preserveFileHandle then p.reading_handle else none,
        is_open := false }
  else Except.error JSError.stateError

/-- `CSVFileParser.rewind()`: fails when not open; otherwise
`close({preserveFileHandle: true})` followed by `open()`. -/
def rewindP (content : List Char) (p : ParserState) : Except JSError ParserState :=
  if p.is_open then
    match closeP true p with
    | Except.error e => Except.error e
    | Except.ok p1 => openP content p1
  else Except.error JSError.stateError

/-- Divisor length used by the index scan; the source would throw on a null
divisor (`null.length`), which is unreachable because the constructor always
sets one. -/
def divisorLen (p : ParserState) : Nat :=
  match p.line_divisor with
  | some d => d.len
  | none => 0

/-- The lines the readline stream still yields, given the full line list of
the file and the stream position. -/
def streamRows (rows : List String) (p : ParserState) : List String :=
  rows.drop (p.stream_pos.getD 0)

/-- Mutable locals of the `buildIndex` scan loop, together with the engine
fields it updates. -/
structure ScanSt where
  lines : Nat
  size : Nat
  header : Option (List String)
  columns : Nat
  pool : List (Nat × Nat)
  maxLength : Nat
deriving DecidableEq, Repr

/-- The `for await (let line of this.#iterator_stream)` loop of `buildIndex`:
the first line (when `#lines === 0`) becomes the header and is counted in
`#lines` and `#size` but not indexed; each later line first checks the
`max` cap (`max >= 0 && #lines >= max` breaks the loop), then records
`(#size, line.length + divisor.length)` in the pool, increments `#lines`,
advances `#size`, and tracks the maximum line length. -/
def scanRows (dl : Nat) (maxRows : Int) : List String → ScanSt → ScanSt
  | [], s => s
  | l :: ls, s =>
    if s.lines = 0 then
      scanRows dl maxRows ls
        { s with
          lines := s.lines + 1, size := s.size + l.length + dl,
          header := some (splitCSVLine l), columns := (splitCSVLine l).length }
    else if 0 ≤ maxRows ∧ maxRows ≤ (s.lines : Int) then s
    else
      scanRows dl maxRows ls
        { s with
          pool := s.pool ++ [(s.size, l.length + dl)],
          lines := s.lines + 1, size := s.size + l.length + dl,
          maxLength := if s.maxLength ≤ l.length then l.length else s.maxLength }

/-- `CSVFileParser.buildIndex({max})`: fails when not open; resets `#lines`
and `#size` (but not the pool, which is only ever appended to), scans the
stream, allocates the shared read buffer at the maximum line length seen,
closes preserving the handle, reopens, and marks the engine indexed.
The progress callback is a pure side channel and is omitted. -/
def buildIndexP (rows : List String) (content : List Char) (maxRows : Int)
    (p : ParserState) : Except JSError ParserState :=
  if p.is_open then
    let s0 : ScanSt :=
      { lines := 0, size := 0, header := p.header,
        columns := p.columns, pool := p.index_pool, maxLength := 0 }
    let s := scanRows (divisorLen p) maxRows (streamRows rows p) s0
    let p1 :=
      { p with
        lines := s.lines, size := s.size, header := s.header,
        columns := s.columns, index_pool := s.pool,
        reading_buffer := some s.maxLength }
    match closeP true p1 with
    | Except.error e => Except.error e
    | Except.ok p2 =>
      match openP content p2 with
      | Except.error e => Except.error e
      | Except.ok p3 => Except.ok { p3 with is_indexed := true }
  else Except.error JSError.stateError

/-- `#readAtIndex` restricted to its successful text result: read exactly
`len` bytes at offset `off`, decode, and trim surrounding whitespace. -/
def readAtIndexStr (content : List Char) (off len : Nat) : String :=
  String.mk (jsTrimChars ((content.drop off).take len))

/-- `CSVFileParser.getLine(index)`: the state errors for not-open and for
not-indexed-or-empty-pool; the hand-built out-of-range error for a falsy,
too-large or non-positive index; then the pool access `#index_pool[index]`,
which on a missing entry raises a TypeError (reading property `1` of
`undefined`); a zero length component would also take the out-of-range
error. The positioned read uses the shared buffer whose size is the maximum
line length seen by the scan; `fs.read` raises ERR_OUT_OF_RANGE when the
entry length exceeds that buffer. The decoded text is handed to
`#buildLineObject` with the engine header (a null header would raise a
TypeError at `_header.length`). -/
def getLineP (content : List Char) (p : ParserState) (index : Int) :
    Except JSError CSVObjectLine :=
  if p.is_open then
    if p.is_indexed = false ∨ p.index_pool = [] then Except.error JSError.stateError
    else if index ≤ 0 ∨ (p.lines : Int) < index then Except.error JSError.rangeError
    else
      match p.index_pool[index.toNat]? with
      | none => Except.error JSError.typeError
      | some entry =>
        if entry.2 = 0 then Except.error JSError.rangeError
        else
          let bufsize := match p.reading_buffer with
            | some b => b
            | none => entry.2
          if bufsize < entry.2 then Except.error JSError.bufferRangeError
          else
            match p.header with
            | none => Except.error JSError.typeError
            | some hdr =>
              Except.ok (buildLineObject (readAtIndexStr content entry.1 entry.2) index hdr)
  else Except.error JSError.stateError

/-- The call `scopeLineObjectBuilder(line, index, { header })` inside the
generator of `iterator()`: `scopeLineObjectBuilder` is the private method
`#buildLineObject` extracted from `this` (`const scopeLineObjectBuilder =
this.#buildLineObject`), so the plain call invokes it with `this` equal to
`undefined` (class bodies are strict mode). The method's first use of
`this` — `this.#splitCSVLine` — therefore throws a TypeError before any
record is built, whatever the arguments are. -/
def unboundBuildLineObject (_line : String) (_idx : Int) (_hdr : List String) :
    Except JSError CSVObjectLine :=
  Except.error JSError.typeError

/-- The generator body of `CSVFileParser.iterator()`: loop counter `index`
starts at 0 and is incremented before each line, line 1 is skipped (capturing
it as the header when none is known), and every later line reaches the
unbound `scopeLineObjectBuilder` call. The run returns the records yielded
before the generator terminates, paired with the error that aborts it, if
any. -/
def iterLoop (hdr : List String) (idx : Int) :
    List String → List CSVObjectLine × Option JSError
  | [] => ([], none)
  | l :: ls =>
    match unboundBuildLineObject l idx hdr with
    | Except.error e => ([], some e)
    | Except.ok r =>
      let rest := iterLoop hdr (idx + 1) ls
      (r :: rest.1, rest.2)

/-- A full consumption of the `iterator()` generator, given the engine
header at creation time and the lines the stream yields: the first line is
never yielded (a string header captured from it would be resolved through
`#splitCSVLine`), and on any stream holding a data line the run aborts with
the TypeError of the unbound `#buildLineObject` call before yielding a
single record. -/
def iteratorRun (hdr0 : Option (List String)) (rows : List String) :
    List CSVObjectLine × Option JSError :=
  match rows with
  | [] => ([], none)
  | first :: rest =>
    let hdr := match hdr0 with
      | some h => h
      | none => splitCSVLine first
    iterLoop hdr 2 rest

/-- Iterator run of an engine, drawing from the stream at its position. -/
def iteratorRunOf (rows : List String) (p : ParserState) :
    List CSVObjectLine × Option JSError :=
  iteratorRun p.header (streamRows rows p)

/-- Byte content of a file whose every line is terminated by the divisor. -/
def fileContent (div : LineDivisor) (rows : List String) : List Char :=
  rows.foldr (fun r acc => r.data ++ (LineDivisor.toStr div).data ++ acc) []

/-- Construct an engine on a file whose physical lines all end in the given
divisor, open it, and build the index with a row cap, as the example driver
of the repository does. The readline stream yields the same line list for
either divisor (crlfDelay strips both). -/
def runIndexedMaxOn (div : LineDivisor) (rows : List String) (maxRows : Int) :
    Except JSError ParserState :=
  match openP (fileContent div rows) (mkParser "data.csv") with
  | Except.error e => Except.error e
  | Except.ok p1 => buildIndexP rows (fileContent div rows) maxRows p1

/-- Capped indexing run on a newline file. -/
def runIndexedMax (rows : List String) (maxRows : Int) : Except JSError ParserState :=
  runIndexedMaxOn LineDivisor.lf rows maxRows

/-- Full (uncapped) indexing run on a newline file. -/
def runIndexed (rows : List String) : Except JSError ParserState :=
  runIndexedMax rows (-1)

/-- The concrete file of the specification's worked example: header line
followed by the data rows of the testable-properties section. -/
def csvRowsA : List String := ["a,b", "1,2", "3,4,5", "6"]

/-- Byte content of that file with newline divisors. -/
def csvContentA : List Char := fileContent LineDivisor.lf csvRowsA

/-- The engine state after open and full buildIndex on the example file.
The run provably succeeds, so the default of `getD` is never taken. -/
def parserA : ParserState := (runIndexed csvRowsA).toOption.getD (mkParser "data.csv")

/-- The engine state after open only (no buildIndex) on the example file. -/
def parserAOpenOnly : ParserState :=
  (openP csvContentA (mkParser "data.csv")).toOption.getD (mkParser "data.csv")

/-- A second concrete file, chosen so that `getLine(1)` performs its read
without overflowing the shared buffer (its longest row is last). -/
def csvRowsB : List String := ["a,b", "1,2", "3,4", "55,66,77"]

/-- Byte content of the second file with newline divisors. -/
def csvContentB : List Char := fileContent LineDivisor.lf csvRowsB

/-- The engine state after open and full buildIndex on the second file. -/
def parserB : ParserState := (runIndexed csvRowsB).toOption.getD (mkParser "data.csv")

/-- Line list of a file whose physical lines end in carriage-return-newline.
The long last row makes the shared read buffer large enough for the earlier
rows, so a positioned read can be exercised. -/
def crlfRows : List String := ["a,b", "1,2", "3,4", "55,66,77"]

/-- Byte content of the carriage-return-newline file. -/
def crlfFileContent : List Char := fileContent LineDivisor.crlf crlfRows

/-- The engine state after open and full buildIndex on the
carriage-return-newline file. -/
def parserCrlf : ParserState :=
  (runIndexedMaxOn LineDivisor.crlf crlfRows (-1)).toOption.getD (mkParser "data.csv")

/-- The engine state after open and buildIndex with a row cap of 2 on the
example file. -/
def parserAMax2 : ParserState :=
  (runIndexedMax csvRowsA 2).toOption.getD (mkParser "data.csv")

/-- Specification of the pool entries the scan records for a run of data
rows: cumulative offsets starting at `start`, each entry spanning the line
plus the divisor. -/
def poolEntries (dl : Nat) (start : Nat) : List String → List (Nat × Nat)
  | [] => []
  | l :: ls => (start, l.length + dl) :: poolEntries dl (start + (l.length + dl)) ls

/-- Total byte span of a run of lines, divisors included. -/
def totalLen (dl : Nat) (ls : List String) : Nat :=
  (ls.map (fun l => l.length + dl)).sum

/-- The data-row part of the scan loop with the break condition stripped:
used to characterise `scanRows` once the header line has been consumed. -/
def scanFold (dl : Nat) : List String → ScanSt → ScanSt
  | [], s => s
  | l :: ls, s =>
    scanFold dl ls
      { s with
        pool := s.pool ++ [(s.size, l.length + dl)],
        lines := s.lines + 1, size := s.size + l.length + dl,
        maxLength := if s.maxLength ≤ l.length then l.length else s.maxLength }

/-- Scan state at the start of `buildIndex` on a freshly opened engine. -/
def initScan : ScanSt :=
  { lines := 0, size := 0, header := none, columns := 0, pool := [],
    maxLength := 0 }

/-- Scan state after the header line has been consumed. -/
def headerState (dl : Nat) (h : String) : ScanSt :=
  { lines := 1, size := h.length + dl, header := some (splitCSVLine h),
    columns := (splitCSVLine h).length, pool := [], maxLength := 0 }

/-- The engine state an open-then-buildIndex run produces from a final scan
state. The line divisor is the newline the constructor pre-set, whatever the
file contains, because the sniffing guard in `open()` is unreachable. -/
def finalState (s : ScanSt) : ParserState :=
  { filename := "data.csv", index_pool := s.pool, header := s.header,
    lines := s.lines, columns := s.columns, size := s.size, is_open := true,
    is_indexed := true, is_iterator_active := false,
    reading_buffer := some s.maxLength, reading_handle := some 0,
    stream_pos := some 0, line_divisor := some LineDivisor.lf }

/-! ### Lemmas about the fields map -/

theorem lookupField_setField (fs : Fields) (k c : String) (v : FieldVal) :
    lookupField (setField fs k v) c = if k = c then some v else lookupField fs c := by
  induction fs with
  | nil => simp [setField, lookupField]
  | cons kv rest ih =>
    obtain ⟨k', v'⟩ := kv
    simp only [setField]
    by_cases h1 : k' = k
    · subst h1
      simp only [if_pos rfl, lookupField]
      by_cases h2 : k' = c <;> simp [h2]
    · simp only [if_neg h1, lookupField]
      by_cases h2 : k' = c
      · subst h2
        have hkc : ¬ k = k' := fun h => h1 h.symm
        simp [hkc]
      · simp [h2, ih]

theorem lookupField_assignField_ne (fs : Fields) (k c : String) (cell : Option String)
    (h : k ≠ c) :
    lookupField (assignField fs k cell) c = lookupField fs c := by
  unfold assignField
  cases hl : lookupField fs k with
  | none => simp [lookupField_setField, h]
  | some v => cases v <;> simp [lookupField_setField, h]

theorem lookupField_assignField_self (fs : Fields) (k : String) (cell : Option String) :
    (lookupField (assignField fs k cell) k).isSome := by
  unfold assignField
  cases hl : lookupField fs k with
  | none => simp [lookupField_setField]
  | some v => cases v <;> simp [lookupField_setField]

theorem lookupField_pushUnnamedCell_isSome (fs : Fields) (cell : Option String)
    (c : String) (h : (lookupField fs c).isSome) :
    (lookupField (pushUnnamedCell fs cell) c).isSome := by
  unfold pushUnnamedCell
  cases hl : lookupField fs "_unnamed" with
  | none => exact h
  | some v =>
    cases v with
    | arr l =>
      rw [lookupField_setField]
      by_cases hc : "_unnamed" = c <;> simp [hc, h]
    | str s => exact h
    | nullv => exact h

theorem lookupField_assignField_isSome (fs : Fields) (k : String) (cell : Option String)
    (c : String) (h : (lookupField fs c).isSome) :
    (lookupField (assignField fs k cell) c).isSome := by
  by_cases hkc : k = c
  · subst hkc; exact lookupField_assignField_self fs k cell
  · rw [lookupField_assignField_ne fs k c cell hkc]; exact h

theorem assignLoop_isSome (cells : List String) (c : String) :
    ∀ (rest : List String) (i : Nat) (fs : Fields),
      (lookupField fs c).isSome → (lookupField (assignLoop cells i rest fs) c).isSome := by
  intro rest
  induction rest with
  | nil => intro i fs h; exact h
  | cons col rest ih =>
    intro i fs h
    exact ih (i + 1) _ (lookupField_assignField_isSome _ _ _ _ h)

theorem excessLoop_isSome (hdr : List String) (c : String) :
    ∀ (rest : List String) (i : Nat) (fs : Fields),
      (lookupField fs c).isSome → (lookupField (excessLoop hdr i rest fs) c).isSome := by
  intro rest
  induction rest with
  | nil => intro i fs h; exact h
  | cons cl rest ih =>
    intro i fs h
    refine ih (i + 1) _ ?_
    cases hcol : hdr[i]? with
    | none => exact lookupField_pushUnnamedCell_isSome _ _ _ h
    | some col =>
      by_cases hce : col = ""
      · simp only [hce, if_pos rfl]
        exact lookupField_pushUnnamedCell_isSome _ _ _ h
      · simp only [if_neg hce]
        exact lookupField_assignField_isSome _ _ _ _ h

theorem assignLoop_sets (cells : List String) (c : String) :
    ∀ (rest : List String) (i : Nat) (fs : Fields), c ∈ rest →
      (lookupField (assignLoop cells i rest fs) c).isSome := by
  intro rest
  induction rest with
  | nil => intro i fs h; cases h
  | cons col rest ih =>
    intro i fs h
    rcases List.mem_cons.mp h with hceq | hmem
    · subst hceq
      exact assignLoop_isSome cells c rest (i + 1) _
        (lookupField_assignField_self _ _ _)
    · exact ih (i + 1) _ hmem

theorem excessLoop_sets (hdr : List String) (c : String) (hcne : c ≠ "") :
    ∀ (rest : List String) (i j : Nat) (fs : Fields), j < rest.length →
      hdr[i + j]? = some c →
      (lookupField (excessLoop hdr i rest fs) c).isSome := by
  intro rest
  induction rest with
  | nil => intro i j fs hj; exact absurd hj (by simp)
  | cons cl rest ih =>
    intro i j fs hj hcol
    cases j with
    | zero =>
      simp only [excessLoop]
      rw [Nat.add_zero] at hcol
      rw [hcol]
      simp only [if_neg hcne]
      exact excessLoop_isSome hdr c rest (i + 1) _
        (lookupField_assignField_self _ _ _)
    | succ j =>
      have hj2 : j < rest.length := by
        simpa [Nat.succ_lt_succ_iff] using hj
      have hcol2 : hdr[(i + 1) + j]? = some c := by
        rw [show (i + 1) + j = i + (j + 1) by omega]
        exact hcol
      exact ih (i + 1) j _ hj2 hcol2

/-! ### Lemmas about the Row Decoder -/

theorem buildLineObject_fields (line : String) (idx : Int) (hdr : List String) :
    (buildLineObject line idx hdr).fields =
      if (splitCSVLine line).length > hdr.length
      then excessLoop hdr 0 (splitCSVLine line) [("_unnamed", FieldVal.arr [])]
      else assignLoop (splitCSVLine line) 0 hdr [("_unnamed", FieldVal.arr [])] := by
  unfold buildLineObject
  by_cases hgt : (splitCSVLine line).length > hdr.length <;> simp [hgt]

theorem buildLineObject_hasMissingCells (line : String) (idx : Int) (hdr : List String) :
    (buildLineObject line idx hdr).hasMissingCells = false := by
  unfold buildLineObject
  by_cases hgt : (splitCSVLine line).length > hdr.length <;> simp [hgt]

theorem buildLineObject_hasExcessCells (line : String) (idx : Int) (hdr : List String) :
    (buildLineObject line idx hdr).hasExcessCells
      = decide (hdr.length < (splitCSVLine line).length) := by
  unfold buildLineObject
  by_cases hgt : (splitCSVLine line).length > hdr.length <;> simp [hgt]

/-- Claim C9: every row record produced by the decoder (hence by both the
random-access and the sequential path, which build records only through
`#buildLineObject`) has `hasMissingCells = false` — the flag is declared on
the record but never computed — while `hasExcessCells` is exactly the
cell-count-exceeds-header test. Confirmed. -/
theorem c9_hasMissingCells_never_set (line : String) (idx : Int) (hdr : List String) :
    (buildLineObject line idx hdr).hasMissingCells = false
    ∧ (buildLineObject line idx hdr).hasExcessCells
        = decide (hdr.length < (splitCSVLine line).length) :=
  ⟨buildLineObject_hasMissingCells line idx hdr,
    buildLineObject_hasExcessCells line idx hdr⟩

/-- Counterexample to claim C8 as stated: on a row with no excess cells the
unnamed bucket is nevertheless present in `fields` (it is created as an
empty array by the `CSVObjectLine` constructor), so the bucket is not
present "only when the row has excess cells". -/
theorem c8_counterexample_unnamed_always_present :
    (buildLineObject "1" 1 ["a"]).hasExcessCells = false
    ∧ lookupField (buildLineObject "1" 1 ["a"]).fields "_unnamed"
        = some (FieldVal.arr []) := by
  decide

/-- Claim C8, amended: for every decoded line, `fields` contains every
non-empty header column name as a key (an empty header name is diverted to
the unnamed bucket in the excess-cells branch), and the `_unnamed` bucket
key is present on every record — not only when excess cells exist. -/
theorem c8_amended_fields_keys (line : String) (idx : Int) (hdr : List String)
    (c : String) (hc : c ∈ hdr) (hcne : c ≠ "") :
    lookupField (buildLineObject line idx hdr).fields c ≠ none
    ∧ lookupField (buildLineObject line idx hdr).fields "_unnamed" ≠ none := by
  have hinit : (lookupField [("_unnamed", FieldVal.arr [])] "_unnamed").isSome := by
    simp [lookupField]
  rw [buildLineObject_fields]
  by_cases hgt : (splitCSVLine line).length > hdr.length
  · simp only [if_pos hgt]
    constructor
    · rw [← Option.isSome_iff_ne_none]
      obtain ⟨j, hj⟩ := List.getElem?_of_mem hc
      have hjlen : j < hdr.length := by
        rcases List.getElem?_eq_some.mp hj with ⟨h1, _⟩
        exact h1
      have hjc : j < (splitCSVLine line).length := lt_trans hjlen hgt
      have hj0 : hdr[0 + j]? = some c := by simpa using hj
      exact excessLoop_sets hdr c hcne (splitCSVLine line) 0 j _ hjc hj0
    · rw [← Option.isSome_iff_ne_none]
      exact excessLoop_isSome hdr "_unnamed" _ 0 _ hinit
  · simp only [if_neg hgt]
    constructor
    · rw [← Option.isSome_iff_ne_none]
      exact assignLoop_sets (splitCSVLine line) c hdr 0 _ hc
    · rw [← Option.isSome_iff_ne_none]
      exact assignLoop_isSome (splitCSVLine line) "_unnamed" hdr 0 _ hinit

/-- Witness for the amended claim C8 at a concrete input. -/
theorem c8_amended_fields_keys_witness :
    lookupField (buildLineObject "1,2,3" 1 ["a", "b"]).fields "a" ≠ none
    ∧ lookupField (buildLineObject "1,2,3" 1 ["a", "b"]).fields "_unnamed" ≠ none :=
  c8_amended_fields_keys "1,2,3" 1 ["a", "b"] "a" (by decide) (by decide)

/-- Counterexample to claim C7 as stated: with header `a,a` and line `,2`,
the first assignment stores null under `a` and the second assignment
overwrites it with the string, instead of accumulating the ordered sequence
the claim demands for every repeated assignment including null ones. -/
theorem c7_counterexample_null_overwritten :
    lookupField (buildLineObject ",2" 1 ["a", "a"]).fields "a"
      = some (FieldVal.str "2")
    ∧ some (FieldVal.str "2") ≠ some (FieldVal.arr [none, some "2"]) := by
  decide

/-- Claim C7, amended: for a duplicated header name, assignments accumulate
in encounter order when the previously stored value is a string (or already
a sequence), but an earlier null value is overwritten by the next
assignment rather than accumulated. Shown parametrically in the column
name. -/
theorem c7_amended_duplicate_names (c : String) :
    lookupField (buildLineObject "1,2" 1 [c, c]).fields c
      = some (FieldVal.arr [some "1", some "2"])
    ∧ (c ≠ "_unnamed" →
        lookupField (buildLineObject ",2" 1 [c, c]).fields c
          = some (FieldVal.str "2")) := by
  by_cases hcu : c = "_unnamed"
  · subst hcu
    exact ⟨by decide, fun h => absurd rfl h⟩
  · have hcu' : ¬ ("_unnamed" = c) := fun h => hcu h.symm
    have hinit_c : lookupField [("_unnamed", FieldVal.arr [])] c = none := by
      simp [lookupField, hcu']
    constructor
    · have hf : (buildLineObject "1,2" 1 [c, c]).fields
          = assignField (assignField [("_unnamed", FieldVal.arr [])] c (some "1"))
              c (some "2") := by
        rw [buildLineObject_fields]
        rw [show splitCSVLine "1,2" = ["1", "2"] from by decide]
        simp [assignLoop, jsCellAt, jsOrNull]
      have ha1 : assignField [("_unnamed", FieldVal.arr [])] c (some "1")
          = setField [("_unnamed", FieldVal.arr [])] c (FieldVal.str "1") := by
        unfold assignField
        rw [hinit_c]
        rfl
      have hl1 : lookupField (setField [("_unnamed", FieldVal.arr [])] c
            (FieldVal.str "1")) c = some (FieldVal.str "1") := by
        rw [lookupField_setField]
        simp
      have ha2 : assignField (setField [("_unnamed", FieldVal.arr [])] c
            (FieldVal.str "1")) c (some "2")
          = setField (setField [("_unnamed", FieldVal.arr [])] c (FieldVal.str "1"))
              c (FieldVal.arr [some "1", some "2"]) := by
        unfold assignField
        rw [hl1]
      rw [hf, ha1, ha2, lookupField_setField]
      simp
    · intro _
      have hf : (buildLineObject ",2" 1 [c, c]).fields
          = assignField (assignField [("_unnamed", FieldVal.arr [])] c none)
              c (some "2") := by
        rw [buildLineObject_fields]
        rw [show splitCSVLine ",2" = ["", "2"] from by decide]
        simp [assignLoop, jsCellAt, jsOrNull]
      have ha1 : assignField [("_unnamed", FieldVal.arr [])] c none
          = setField [("_unnamed", FieldVal.arr [])] c FieldVal.nullv := by
        unfold assignField
        rw [hinit_c]
        rfl
      have hl1 : lookupField (setField [("_unnamed", FieldVal.arr [])] c
            FieldVal.nullv) c = some FieldVal.nullv := by
        rw [lookupField_setField]
        simp
      have ha2 : assignField (setField [("_unnamed", FieldVal.arr [])] c
            FieldVal.nullv) c (some "2")
          = setField (setField [("_unnamed", FieldVal.arr [])] c FieldVal.nullv)
              c (FieldVal.str "2") := by
        unfold assignField
        rw [hl1]
        rfl
      rw [hf, ha1, ha2, lookupField_setField]
      simp

/-! ### Lemmas about the index scan -/

theorem scanFold_lines (dl : Nat) (ds : List String) :
    ∀ s : ScanSt, (scanFold dl ds s).lines = s.lines + ds.length := by
  induction ds with
  | nil => intro s; simp [scanFold]
  | cons l ls ih =>
    intro s
    simp only [scanFold]
    rw [ih]
    simp only [List.length_cons]
    omega

theorem scanFold_header (dl : Nat) (ds : List String) :
    ∀ s : ScanSt, (scanFold dl ds s).header = s.header := by
  induction ds with
  | nil => intro s; simp [scanFold]
  | cons l ls ih => intro s; simp only [scanFold]; rw [ih]

theorem scanFold_columns (dl : Nat) (ds : List String) :
    ∀ s : ScanSt, (scanFold dl ds s).columns = s.columns := by
  induction ds with
  | nil => intro s; simp [scanFold]
  | cons l ls ih => intro s; simp only [scanFold]; rw [ih]

theorem scanFold_size (dl : Nat) (ds : List String) :
    ∀ s : ScanSt, (scanFold dl ds s).size = s.size + totalLen dl ds := by
  induction ds with
  | nil => intro s; simp [scanFold, totalLen]
  | cons l ls ih =>
    intro s
    simp only [scanFold]
    rw [ih]
    simp only [totalLen, List.map_cons, List.sum_cons]
    omega

theorem scanFold_pool (dl : Nat) (ds : List String) :
    ∀ s : ScanSt, (scanFold dl ds s).pool = s.pool ++ poolEntries dl s.size ds := by
  induction ds with
  | nil => intro s; simp [scanFold, poolEntries]
  | cons l ls ih =>
    intro s
    simp only [scanFold]
    rw [ih]
    simp only [poolEntries, List.append_assoc, List.singleton_append]
    rw [show s.size + l.length + dl = s.size + (l.length + dl) by omega]

theorem poolEntries_length (dl : Nat) (ds : List String) :
    ∀ start : Nat, (poolEntries dl start ds).length = ds.length := by
  induction ds with
  | nil => intro start; simp [poolEntries]
  | cons l ls ih => intro start; simp [poolEntries, ih]

theorem poolEntries_snd_pos (dl : Nat) (hdl : 0 < dl) (ds : List String) :
    ∀ (start : Nat) (e : Nat × Nat), e ∈ poolEntries dl start ds → 0 < e.2 := by
  induction ds with
  | nil => intro start e he; simp [poolEntries] at he
  | cons l ls ih =>
    intro start e he
    rcases List.mem_cons.mp he with heq | hmem
    · subst heq; simp; omega
    · exact ih _ e hmem

theorem poolEntries_fst_ge (dl : Nat) (ds : List String) :
    ∀ (start : Nat) (e : Nat × Nat), e ∈ poolEntries dl start ds → start ≤ e.1 := by
  induction ds with
  | nil => intro start e he; simp [poolEntries] at he
  | cons l ls ih =>
    intro start e he
    rcases List.mem_cons.mp he with heq | hmem
    · subst heq; simp
    · have := ih _ e hmem
      omega

theorem poolEntries_pairwise (dl : Nat) (hdl : 0 < dl) (ds : List String) :
    ∀ start : Nat,
      List.Pairwise (fun a b : Nat × Nat => a.1 < b.1) (poolEntries dl start ds) := by
  induction ds with
  | nil => intro start; simp [poolEntries]
  | cons l ls ih =>
    intro start
    simp only [poolEntries]
    refine List.pairwise_cons.mpr ⟨?_, ih _⟩
    intro e he
    have := poolEntries_fst_ge dl ls _ e he
    simp only []
    omega

theorem scanRows_header_step (dl : Nat) (maxRows : Int) (h : String) (ds : List String) :
    scanRows dl maxRows (h :: ds) initScan = scanRows dl maxRows ds (headerState dl h) := by
  simp [scanRows, initScan, headerState]

theorem scanRows_neg (dl : Nat) (maxRows : Int) (hm : maxRows < 0) (ds : List String) :
    ∀ s : ScanSt, 1 ≤ s.lines → scanRows dl maxRows ds s = scanFold dl ds s := by
  induction ds with
  | nil => intro s _; rfl
  | cons l ls ih =>
    intro s hs
    have h0 : ¬ s.lines = 0 := by omega
    have hbr : ¬ (0 ≤ maxRows ∧ maxRows ≤ (s.lines : Int)) := by
      rintro ⟨h1, _⟩; omega
    simp only [scanRows, scanFold, if_neg h0, if_neg hbr]
    exact ih _ (by show 1 ≤ s.lines + 1; omega)

theorem scanRows_cap (dl : Nat) (k : Nat) (ds : List String) :
    ∀ s : ScanSt, 1 ≤ s.lines →
      scanRows dl (k : Int) ds s = scanFold dl (List.take (k - s.lines) ds) s := by
  induction ds with
  | nil => intro s _; simp [scanRows, List.take_nil, scanFold]
  | cons l ls ih =>
    intro s hs
    have h0 : ¬ s.lines = 0 := by omega
    by_cases hk : k ≤ s.lines
    · have hbr : 0 ≤ (k : Int) ∧ (k : Int) ≤ (s.lines : Int) := by
        constructor
        · exact Int.ofNat_nonneg k
        · exact_mod_cast hk
      have htake : k - s.lines = 0 := by omega
      simp only [scanRows, if_neg h0, if_pos hbr, htake, List.take_zero, scanFold]
    · have hbr : ¬ (0 ≤ (k : Int) ∧ (k : Int) ≤ (s.lines : Int)) := by
        rintro ⟨_, h2⟩
        have : k ≤ s.lines := by exact_mod_cast h2
        omega
      have htake : k - s.lines = (k - (s.lines + 1)) + 1 := by omega
      conv_rhs => rw [htake, List.take_succ_cons]
      simp only [scanRows, if_neg h0, if_neg hbr, scanFold]
      exact ih _ (by show 1 ≤ s.lines + 1; omega)

/-! ### Characterisation of the open-then-buildIndex pipeline -/

theorem runIndexedMaxOn_eq (div : LineDivisor) (rows : List String) (maxRows : Int) :
    runIndexedMaxOn div rows maxRows
      = Except.ok (finalState (scanRows 1 maxRows rows initScan)) := rfl

theorem runIndexed_eq (h : String) (ds : List String) :
    runIndexed (h :: ds) = Except.ok (finalState (scanFold 1 ds (headerState 1 h))) := by
  have h1 : runIndexed (h :: ds)
      = Except.ok (finalState (scanRows 1 (-1) (h :: ds) initScan)) :=
    runIndexedMaxOn_eq LineDivisor.lf (h :: ds) (-1)
  rw [h1, scanRows_header_step,
    scanRows_neg 1 (-1) (by omega) ds (headerState 1 h) (Nat.le_refl 1)]

theorem runIndexedMax_cap_eq (h : String) (ds : List String) (k : Nat) :
    runIndexedMax (h :: ds) (k : Int)
      = Except.ok (finalState (scanFold 1 (List.take (k - 1) ds) (headerState 1 h))) := by
  have h1 : runIndexedMax (h :: ds) (k : Int)
      = Except.ok (finalState (scanRows 1 (k : Int) (h :: ds) initScan)) :=
    runIndexedMaxOn_eq LineDivisor.lf (h :: ds) (k : Int)
  rw [h1, scanRows_header_step,
    scanRows_cap 1 k ds (headerState 1 h) (Nat.le_refl 1)]
  rfl

/-! ### Classification of the getLine error paths -/

theorem getLineP_not_indexed (content : List Char) (q : ParserState) (i : Int)
    (hq : q.is_indexed = false) :
    getLineP content q i = Except.error JSError.stateError := by
  by_cases hqo : q.is_open = true
  · simp [getLineP, hqo, hq]
  · simp [getLineP, hqo]

theorem getLineP_classify (content : List Char) (p : ParserState) (i : Int)
    (hopen : p.is_open = true) (hidx : p.is_indexed = true)
    (hpool : ¬ p.index_pool = [])
    (hlen : ∀ e ∈ p.index_pool, 0 < e.2) :
    ((i ≤ 0 ∨ (p.lines : Int) < i) →
        getLineP content p i = Except.error JSError.rangeError)
    ∧ (1 ≤ i → i ≤ (p.lines : Int) → p.index_pool.length ≤ i.toNat →
        getLineP content p i = Except.error JSError.typeError)
    ∧ (1 ≤ i → i ≤ (p.lines : Int) → i.toNat < p.index_pool.length →
        getLineP content p i ≠ Except.error JSError.rangeError
        ∧ getLineP content p i ≠ Except.error JSError.stateError) := by
  unfold getLineP
  rw [hopen, hidx]
  simp only [if_true]
  refine ⟨fun hc => ?_, fun h1 h2 h3 => ?_, fun h1 h2 h3 => ?_⟩
  · simp [hpool, hc]
  · have hc : ¬ (i ≤ 0 ∨ (p.lines : Int) < i) := by omega
    rw [List.getElem?_eq_none h3]
    simp [hpool, hc]
  · have hc : ¬ (i ≤ 0 ∨ (p.lines : Int) < i) := by omega
    rw [List.getElem?_eq_getElem h3]
    have hpos : 0 < (p.index_pool[i.toNat]).2 :=
      hlen _ (List.getElem_mem h3)
    have hz : ¬ ((p.index_pool[i.toNat]).2 = 0) := by omega
    simp only [hpool, hc]
    constructor
    · simp only [if_false, or_false]
      split
      · simp_all
      · split
        · simp
        · split <;> simp
    · simp only [if_false, or_false]
      split
      · simp_all
      · split
        · simp
        · split <;> simp

theorem getLineP_empty_pool (content : List Char) (q : ParserState) (i : Int)
    (hq : q.index_pool = []) :
    getLineP content q i = Except.error JSError.stateError := by
  by_cases hqo : q.is_open = true
  · simp [getLineP, hqo, hq]
  · simp [getLineP, hqo]

/-- Counterexample to claim C2 as stated: on the example file the engine
reports `lines == 4`, not 3, because the buildIndex scan counts the header
line in `#lines` alongside the three data rows. -/
theorem c2_counterexample_lines :
    (runIndexed csvRowsA).toOption ≠ none
    ∧ parserA.lines = 4
    ∧ ¬ parserA.lines = 3 := by
  decide

/-- Claim C2, amended: on the example file, `columns == 2` but `lines == 4`
(the header is counted); the decoded records of the three data rows carry
exactly the claimed fields, excess flag and unnamed bucket. -/
theorem c2_amended_example_file :
    parserA.columns = 2
    ∧ parserA.lines = 4
    ∧ parserA.header = some ["a", "b"]
    ∧ lookupField (buildLineObject "1,2" 1 ["a", "b"]).fields "a"
        = some (FieldVal.str "1")
    ∧ lookupField (buildLineObject "1,2" 1 ["a", "b"]).fields "b"
        = some (FieldVal.str "2")
    ∧ (buildLineObject "1,2" 1 ["a", "b"]).hasExcessCells = false
    ∧ (buildLineObject "3,4,5" 2 ["a", "b"]).hasExcessCells = true
    ∧ lookupField (buildLineObject "3,4,5" 2 ["a", "b"]).fields "a"
        = some (FieldVal.str "3")
    ∧ lookupField (buildLineObject "3,4,5" 2 ["a", "b"]).fields "b"
        = some (FieldVal.str "4")
    ∧ lookupField (buildLineObject "3,4,5" 2 ["a", "b"]).fields "_unnamed"
        = some (FieldVal.arr [some "5"])
    ∧ lookupField (buildLineObject "6" 3 ["a", "b"]).fields "a"
        = some (FieldVal.str "6")
    ∧ lookupField (buildLineObject "6" 3 ["a", "b"]).fields "b"
        = some FieldVal.nullv := by
  decide

/-- Counterexample to claim C3 as stated: on the fully indexed example file
(`lines == 4`, three pool entries), row numbers 3 and 4 have no pool entry
under the engine's indexing, yet `getLine` fails for them with a TypeError
(property `1` of `undefined`), not with the out-of-range RangeError the
claim requires for every row number lacking an Index Table entry. -/
theorem c3_counterexample_missing_entry :
    parserA.lines = 4
    ∧ getLineP csvContentA parserA 3 = Except.error JSError.typeError
    ∧ getLineP csvContentA parserA 4 = Except.error JSError.typeError := by
  refine ⟨by decide, by rfl, by rfl⟩

/-- Claim C3, amended: on an open engine fully indexed over a header line
and `N ≥ 1` data rows, the accessor `lines` reports `N + 1`; `getLine(i)`
fails with the crafted RangeError exactly when `i ≤ 0` or `i > N + 1`
(i.e. `i > lines`); for `i = N` and `i = N + 1` — both inside `[1, lines]` —
it fails with a TypeError from the missing pool entry instead; and before
`buildIndex` any `getLine` fails with the StateError. -/
theorem c3_amended_getline_errors (h : String) (ds : List String) (i : Int)
    (p : ParserState) (hne : ds ≠ [])
    (hp : runIndexed (h :: ds) = Except.ok p) :
    p.lines = ds.length + 1
    ∧ (getLineP (fileContent LineDivisor.lf (h :: ds)) p i
          = Except.error JSError.rangeError
        ↔ (i ≤ 0 ∨ (ds.length : Int) + 1 < i))
    ∧ ((i = (ds.length : Int) ∨ i = (ds.length : Int) + 1) →
        getLineP (fileContent LineDivisor.lf (h :: ds)) p i
          = Except.error JSError.typeError)
    ∧ (∀ q : ParserState, q.is_indexed = false →
        getLineP (fileContent LineDivisor.lf (h :: ds)) q i
          = Except.error JSError.stateError) := by
  have he := runIndexed_eq h ds
  rw [hp] at he
  have hpe : p = finalState (scanFold 1 ds (headerState 1 h)) := Except.ok.inj he
  subst hpe
  have hdsl : 0 < ds.length := List.length_pos.mpr hne
  have hlines : (finalState (scanFold 1 ds (headerState 1 h))).lines
      = ds.length + 1 := by
    show (scanFold 1 ds (headerState 1 h)).lines = ds.length + 1
    rw [scanFold_lines]
    show 1 + ds.length = ds.length + 1
    omega
  have hpool_eq : (finalState (scanFold 1 ds (headerState 1 h))).index_pool
      = poolEntries 1 (h.length + 1) ds := by
    show (scanFold 1 ds (headerState 1 h)).pool = _
    rw [scanFold_pool]
    simp [headerState]
  have hplen : (finalState (scanFold 1 ds (headerState 1 h))).index_pool.length
      = ds.length := by
    rw [hpool_eq, poolEntries_length]
  have hpne : ¬ (finalState (scanFold 1 ds (headerState 1 h))).index_pool = [] := by
    intro hcon
    rw [hcon] at hplen
    simp at hplen
    omega
  have hlen : ∀ e ∈ (finalState (scanFold 1 ds (headerState 1 h))).index_pool,
      0 < e.2 := by
    rw [hpool_eq]
    exact poolEntries_snd_pos 1 (by omega) ds _
  obtain ⟨hcl1, hcl2, hcl3⟩ := getLineP_classify
    (fileContent LineDivisor.lf (h :: ds))
    (finalState (scanFold 1 ds (headerState 1 h))) i rfl rfl hpne hlen
  have hcast : ((finalState (scanFold 1 ds (headerState 1 h))).lines : Int)
      = (ds.length : Int) + 1 := by
    rw [hlines]
    push_cast
    ring
  refine ⟨hlines, ⟨?_, ?_⟩, ?_, ?_⟩
  · intro hre
    by_contra hcon
    push_neg at hcon
    obtain ⟨hc1, hc2⟩ := hcon
    have hi1 : 1 ≤ i := by omega
    have hi2 : i ≤ ((finalState (scanFold 1 ds (headerState 1 h))).lines : Int) := by
      rw [hcast]; omega
    by_cases hsz : (finalState (scanFold 1 ds (headerState 1 h))).index_pool.length
        ≤ i.toNat
    · have hte := hcl2 hi1 hi2 hsz
      rw [hte] at hre
      simp at hre
    · push_neg at hsz
      exact absurd hre (hcl3 hi1 hi2 hsz).1
  · intro hc
    apply hcl1
    rw [hcast]
    omega
  · intro hi
    have hi1 : 1 ≤ i := by
      rcases hi with hi | hi <;> omega
    have hi2 : i ≤ ((finalState (scanFold 1 ds (headerState 1 h))).lines : Int) := by
      rw [hcast]
      rcases hi with hi | hi <;> omega
    have hsz : (finalState (scanFold 1 ds (headerState 1 h))).index_pool.length
        ≤ i.toNat := by
      rw [hplen]
      rcases hi with hi | hi <;> omega
    exact hcl2 hi1 hi2 hsz
  · intro q hq
    exact getLineP_not_indexed _ q i hq

/-- Witness for the amended claim C3 at the example file. -/
theorem c3_amended_getline_errors_witness :
    getLineP csvContentA parserA 5 = Except.error JSError.rangeError :=
  ((c3_amended_getline_errors "a,b" ["1,2", "3,4,5", "6"] 5 parserA
      (by decide) (by rfl)).2.1).mpr (by decide)

/-- Counterexample to claim C4 as stated: on the fully indexed example file
the Index Table holds 3 entries while `lines` reports 4, so the table does
not hold exactly `lines` valid entries. -/
theorem c4_counterexample_pool_count :
    parserA.lines = 4 ∧ parserA.index_pool.length = 3 := by
  decide

/-- Claim C4, amended: after full indexing the Index Table holds exactly
`lines - 1` entries — one per data row, stored 0-based — and the byte
offsets of successive entries are strictly increasing. -/
theorem c4_amended_pool_invariants (h : String) (ds : List String)
    (p : ParserState) (hp : runIndexed (h :: ds) = Except.ok p) :
    p.index_pool.length + 1 = p.lines
    ∧ p.index_pool.length = ds.length
    ∧ List.Pairwise (fun a b : Nat × Nat => a.1 < b.1) p.index_pool := by
  have he := runIndexed_eq h ds
  rw [hp] at he
  have hpe : p = finalState (scanFold 1 ds (headerState 1 h)) := Except.ok.inj he
  subst hpe
  have hlines : (finalState (scanFold 1 ds (headerState 1 h))).lines
      = ds.length + 1 := by
    show (scanFold 1 ds (headerState 1 h)).lines = ds.length + 1
    rw [scanFold_lines]
    show 1 + ds.length = ds.length + 1
    omega
  have hpool_eq : (finalState (scanFold 1 ds (headerState 1 h))).index_pool
      = poolEntries 1 (h.length + 1) ds := by
    show (scanFold 1 ds (headerState 1 h)).pool = _
    rw [scanFold_pool]
    simp [headerState]
  have hplen : (finalState (scanFold 1 ds (headerState 1 h))).index_pool.length
      = ds.length := by
    rw [hpool_eq, poolEntries_length]
  refine ⟨?_, hplen, ?_⟩
  · rw [hplen, hlines]
  · rw [hpool_eq]
    exact poolEntries_pairwise 1 (by omega) ds _

/-- Witness for the amended claim C4 at the example file. -/
theorem c4_amended_pool_invariants_witness :
    parserA.index_pool.length + 1 = parserA.lines
    ∧ parserA.index_pool.length = ["1,2", "3,4,5", "6"].length
    ∧ List.Pairwise (fun a b : Nat × Nat => a.1 < b.1) parserA.index_pool :=
  c4_amended_pool_invariants "a,b" ["1,2", "3,4,5", "6"] parserA (by rfl)

/-- Counterexample to claim C5 as stated: `buildIndex` with a cap of 0 on the
example file leaves `lines == 1` (the header is scanned and counted before
the cap is ever checked), not `lines == 0` as the claim requires for
`k = 0`. -/
theorem c5_counterexample_max_zero :
    (runIndexedMax csvRowsA 0).toOption.map (fun p => p.lines) = some 1 := by
  decide

/-- Claim C5, amended: for `0 ≤ k < totalRows`, `buildIndex` with a cap of `k`
leaves `lines == max k 1` (the header is always counted) and only `k - 1`
Index Table entries, with `size` spanning the header and those `k - 1` rows;
a subsequent `getLine(k+1)` fails with the out-of-range RangeError when
`k ≥ 2`, but with the not-indexed StateError when `k ≤ 1`, because the pool
is then empty. -/
theorem c5_amended_capped_indexing (h : String) (ds : List String) (k : Nat)
    (p : ParserState) (hk : k < ds.length)
    (hp : runIndexedMax (h :: ds) (k : Int) = Except.ok p) :
    p.lines = max k 1
    ∧ p.index_pool.length = k - 1
    ∧ p.size = (h.length + 1) + totalLen 1 (List.take (k - 1) ds)
    ∧ (2 ≤ k →
        getLineP (fileContent LineDivisor.lf (h :: ds)) p ((k : Int) + 1)
          = Except.error JSError.rangeError)
    ∧ (k ≤ 1 →
        getLineP (fileContent LineDivisor.lf (h :: ds)) p ((k : Int) + 1)
          = Except.error JSError.stateError) := by
  have he := runIndexedMax_cap_eq h ds k
  rw [hp] at he
  have hpe : p = finalState (scanFold 1 (List.take (k - 1) ds) (headerState 1 h)) :=
    Except.ok.inj he
  subst hpe
  have htl : (List.take (k - 1) ds).length = k - 1 := by
    rw [List.length_take]
    omega
  have hlines : (finalState (scanFold 1 (List.take (k - 1) ds)
      (headerState 1 h))).lines = max k 1 := by
    show (scanFold 1 (List.take (k - 1) ds) (headerState 1 h)).lines = max k 1
    rw [scanFold_lines, htl]
    show 1 + (k - 1) = max k 1
    omega
  have hpool_eq : (finalState (scanFold 1 (List.take (k - 1) ds)
      (headerState 1 h))).index_pool
      = poolEntries 1 (h.length + 1) (List.take (k - 1) ds) := by
    show (scanFold 1 (List.take (k - 1) ds) (headerState 1 h)).pool = _
    rw [scanFold_pool]
    simp [headerState]
  have hplen : (finalState (scanFold 1 (List.take (k - 1) ds)
      (headerState 1 h))).index_pool.length = k - 1 := by
    rw [hpool_eq, poolEntries_length, htl]
  have hsize : (finalState (scanFold 1 (List.take (k - 1) ds)
      (headerState 1 h))).size
      = (h.length + 1) + totalLen 1 (List.take (k - 1) ds) := by
    show (scanFold 1 (List.take (k - 1) ds) (headerState 1 h)).size = _
    rw [scanFold_size]
    rfl
  refine ⟨hlines, hplen, hsize, ?_, ?_⟩
  · intro hk2
    have hpne : ¬ (finalState (scanFold 1 (List.take (k - 1) ds)
        (headerState 1 h))).index_pool = [] := by
      intro hcon
      rw [hcon] at hplen
      simp at hplen
      omega
    have hlen : ∀ e ∈ (finalState (scanFold 1 (List.take (k - 1) ds)
        (headerState 1 h))).index_pool, 0 < e.2 := by
      rw [hpool_eq]
      exact poolEntries_snd_pos 1 (by omega) _ _
    obtain ⟨hcl1, _, _⟩ := getLineP_classify
      (fileContent LineDivisor.lf (h :: ds))
      (finalState (scanFold 1 (List.take (k - 1) ds) (headerState 1 h)))
      ((k : Int) + 1) rfl rfl hpne hlen
    apply hcl1
    right
    rw [hlines]
    have : max k 1 = k := by omega
    rw [this]
    omega
  · intro hk1
    apply getLineP_empty_pool
    rw [hpool_eq]
    have : k - 1 = 0 := by omega
    rw [this] at htl ⊢
    rw [List.take_zero ds]
    rfl

/-- Witness for the amended claim C5 at the example file with cap 2. -/
theorem c5_amended_capped_indexing_witness :
    parserAMax2.lines = max 2 1
    ∧ parserAMax2.index_pool.length = 2 - 1
    ∧ parserAMax2.size
        = ("a,b".length + 1) + totalLen 1 (List.take (2 - 1) ["1,2", "3,4,5", "6"])
    ∧ (2 ≤ 2 →
        getLineP (fileContent LineDivisor.lf ("a,b" :: ["1,2", "3,4,5", "6"]))
          parserAMax2 (((2 : Nat) : Int) + 1)
          = Except.error JSError.rangeError)
    ∧ (2 ≤ 1 →
        getLineP (fileContent LineDivisor.lf ("a,b" :: ["1,2", "3,4,5", "6"]))
          parserAMax2 (((2 : Nat) : Int) + 1)
          = Except.error JSError.stateError) :=
  c5_amended_capped_indexing "a,b" ["1,2", "3,4,5", "6"] 2 parserAMax2
    (by decide) (by rfl)

/-- Claim C1 fails on the code (code bug), in two independent ways shown on
the second concrete file. First, `getLine(1)` reads pool entry 1 — the
second data row, `3,4` — and stamps it with index 1, so the random-access
path is shifted one row against the file (the row at pool entry 0 is
unreachable, contradicting the source's own doc comment that line numbers
start at 1). Second, a full `iterator()` pass yields no record at all:
the generator calls the extracted private method `#buildLineObject`
unbound and aborts with a TypeError at the first data line, so there is no
i-th iterator record for `getLine(i)` to be identical to. -/
theorem c1_cross_path_divergence :
    (getLineP csvContentB parserB 1).toOption.map (fun r => (r.index, r.line))
        = some ((1 : Int), some "3,4")
    ∧ iteratorRunOf csvRowsB parserB = ([], some JSError.typeError) := by
  decide

/-- Claim C6 fails on the code (code bug): the constructor pre-initialises
`#line_divisor` to the one-byte newline, so the falsy-guarded sniff in
`open()` never runs. On a carriage-return-newline file whose leading chunk
the sniff would classify as crlf, the engine keeps the newline divisor, the
pool entry lengths undercount every row by one byte, and a positioned read
of row entry 1 returns the misaligned text `3,` (cells `["3", ""]`) instead
of a row of the file. -/
theorem c6_divisor_sniff_dead :
    sniffDivisor crlfFileContent = LineDivisor.crlf
    ∧ (openP crlfFileContent (mkParser "data.csv")).toOption.map
        (fun p => p.line_divisor) = some (some LineDivisor.lf)
    ∧ parserCrlf.line_divisor = some LineDivisor.lf
    ∧ parserCrlf.index_pool = [(4, 4), (8, 4), (12, 9)]
    ∧ (getLineP crlfFileContent parserCrlf 1).toOption.map (fun r => r.cells)
        = some ["3", ""] := by
  decide

/-- `getLineP` depends only on the six engine fields it reads. -/
theorem getLineP_congr (content : List Char) (q p : ParserState) (j : Int)
    (h1 : q.is_open = p.is_open) (h2 : q.is_indexed = p.is_indexed)
    (h3 : q.index_pool = p.index_pool) (h4 : q.lines = p.lines)
    (h5 : q.reading_buffer = p.reading_buffer) (h6 : q.header = p.header) :
    getLineP content q j = getLineP content p j := by
  unfold getLineP
  rw [h1, h2, h3, h4, h5, h6]

/-- Claim C10: `rewind()` on an open (in particular indexed) engine succeeds
and leaves `filename`, the indexed flag, `header`, `lines`, `columns`,
`size` and the whole Index Table unchanged, preserves the positioned-read
handle when one is held, and therefore every `getLine` call returns exactly
what it returned before the rewind. Confirmed. -/
theorem c10_rewind_frame (content : List Char) (p : ParserState)
    (hopen : p.is_open = true) (hidx : p.is_indexed = true) :
    ∃ p' : ParserState, rewindP content p = Except.ok p'
      ∧ p'.filename = p.filename
      ∧ p'.is_indexed = true
      ∧ p'.header = p.header
      ∧ p'.lines = p.lines
      ∧ p'.columns = p.columns
      ∧ p'.size = p.size
      ∧ p'.index_pool = p.index_pool
      ∧ (p.reading_handle.isSome → p'.reading_handle = p.reading_handle)
      ∧ (∀ j : Int, getLineP content p' j = getLineP content p j) := by
  by_cases hd : p.line_divisor.isNone
  · cases hh : p.reading_handle with
    | none =>
      refine ⟨{ p with
          stream_pos := some 0, reading_handle := some 0,
          is_open := true, line_divisor := some (sniffDivisor content) },
        by simp [rewindP, closeP, openP, hopen, hh, hd],
        rfl, hidx, rfl, rfl, rfl, rfl, rfl, by simp [hh],
        fun j => getLineP_congr content _ p j hopen.symm rfl rfl rfl rfl rfl⟩
    | some h0 =>
      refine ⟨{ p with
          stream_pos := some 0, reading_handle := some h0,
          is_open := true, line_divisor := some (sniffDivisor content) },
        by simp [rewindP, closeP, openP, hopen, hh, hd],
        rfl, hidx, rfl, rfl, rfl, rfl, rfl, fun _ => rfl,
        fun j => getLineP_congr content _ p j hopen.symm rfl rfl rfl rfl rfl⟩
  · cases hh : p.reading_handle with
    | none =>
      refine ⟨{ p with
          stream_pos := some 0, reading_handle := some 0,
          is_open := true },
        by simp [rewindP, closeP, openP, hopen, hh, hd],
        rfl, hidx, rfl, rfl, rfl, rfl, rfl, by simp [hh],
        fun j => getLineP_congr content _ p j hopen.symm rfl rfl rfl rfl rfl⟩
    | some h0 =>
      refine ⟨{ p with
          stream_pos := some 0, reading_handle := some h0,
          is_open := true },
        by simp [rewindP, closeP, openP, hopen, hh, hd],
        rfl, hidx, rfl, rfl, rfl, rfl, rfl, fun _ => rfl,
        fun j => getLineP_congr content _ p j hopen.symm rfl rfl rfl rfl rfl⟩

/-- Witness for claim C10 at the fully indexed example engine. -/
theorem c10_rewind_frame_witness :
    ∃ p' : ParserState, rewindP csvContentA parserA = Except.ok p'
      ∧ p'.filename = parserA.filename
      ∧ p'.is_indexed = true
      ∧ p'.header = parserA.header
      ∧ p'.lines = parserA.lines
      ∧ p'.columns = parserA.columns
      ∧ p'.size = parserA.size
      ∧ p'.index_pool = parserA.index_pool
      ∧ (parserA.reading_handle.isSome → p'.reading_handle = parserA.reading_handle)
      ∧ (∀ j : Int, getLineP csvContentA p' j = getLineP csvContentA parserA j) :=
  c10_rewind_frame csvContentA parserA (by decide) (by decide)

/-- Witness for the amended claim C7 at a concrete column name. -/
theorem c7_amended_duplicate_names_witness :
    lookupField (buildLineObject "1,2" 1 ["b", "b"]).fields "b"
      = some (FieldVal.arr [some "1", some "2"])
    ∧ lookupField (buildLineObject ",2" 1 ["b", "b"]).fields "b"
      = some (FieldVal.str "2") :=
  ⟨(c7_amended_duplicate_names "b").1,
    (c7_amended_duplicate_names "b").2 (by decide)⟩
